import Mathlib

/-!
Verification of the `carrier` CLI front-end (Xenon-Lang-Org/carrier).

The repository is glue code: it loads/saves a four-field TOML project
configuration (`src/config.rs`), discovers `.xn` source files and merges
them (`src/commands.rs`), and delegates real work to external executables
by spawning child processes (`src/commands.rs`, `src/main.rs`).

Shallow embedding conventions:
  * The filesystem is passed explicitly: the content of `xn.toml` is an
    `Option String` (`none` = file absent), the directory walk of `src/`
    is a list of entries (`none` = a walk entry that errored, as `WalkDir`
    yields for an absent directory and which the source skips with
    `if let Ok(e)`), and file reads are a function `String → Option String`.
  * Process spawning is an oracle: `spawnOk : Bool` says whether
    `Command::spawn` succeeded, and `childExit : Nat` is the exit status
    the child reports to `wait()`.  The source calls `.spawn()?.wait()?;`
    and discards the `ExitStatus` returned by `wait`, which the embedding
    mirrors by ignoring `childExit`.
  * The `toml` crate's (de)serialization of the flat four-string-field
    struct `XnConfig` is modelled as `key = "value"` basic-string lines:
    serialization emits the fields in serde field order (the struct's
    declaration order), and parsing accepts the four `key = "value"`
    lines in any order, rejecting duplicate keys and any file that does
    not provide all four required keys (serde derives no `#[serde(default)]`,
    so a missing field is a hard parse error).
-/

namespace Carrier

/-- The persistent project configuration (src/config.rs, `XnConfig`):
four required `String` fields, declared in this order. -/
structure XnConfig where
  compiler_path : String
  interpreter_path : String
  vm_path : String
  project_name : String
deriving DecidableEq, Repr

/-- TOML basic-string escaping of one character, as the `toml` serializer
writes the string values of `XnConfig` in `save_config`. -/
def escapeChar (c : Char) : List Char :=
  if c = '"' then ['\\', '"']
  else if c = '\\' then ['\\', '\\']
  else if c = '\n' then ['\\', 'n']
  else if c = '\t' then ['\\', 't']
  else if c = '\r' then ['\\', 'r']
  else [c]

/-- TOML basic-string escaping of a whole string. -/
def escapeStr (s : List Char) : List Char :=
  (s.map escapeChar).flatten

/-- One serialized `key = "value"` line followed by the remainder of the
file.  The remainder is passed explicitly so that the serialized file is
built exactly as the concatenation of its four lines. -/
def kvLine (k v rest : List Char) : List Char :=
  k ++ ' ' :: '=' :: ' ' :: '"' :: (escapeStr v ++ '"' :: '\n' :: rest)

/-- The characters of the key `compiler_path`. -/
def compilerKey : List Char := "compiler_path".data

/-- The characters of the key `interpreter_path`. -/
def interpKey : List Char := "interpreter_path".data

/-- The characters of the key `vm_path`. -/
def vmKey : List Char := "vm_path".data

/-- The characters of the key `project_name`. -/
def projectKey : List Char := "project_name".data

/-- The text `toml::to_string_pretty` produces for an `XnConfig`
(src/config.rs, `save_config`): one `key = "value"` line per field, in
serde field order, i.e. the struct's declaration order. -/
def serializeConfigChars (c : XnConfig) : List Char :=
  kvLine compilerKey c.compiler_path.data
    (kvLine interpKey c.interpreter_path.data
      (kvLine vmKey c.vm_path.data
        (kvLine projectKey c.project_name.data [])))

/-- `save_config` (src/config.rs): serializes the config; the returned
string is the full new content written to the file at the given path
(`fs::write` truncates, so any previous content is replaced). -/
def save_config (c : XnConfig) : String :=
  ⟨serializeConfigChars c⟩

/-- Inverse of `escapeChar` on the character following a backslash. -/
def unescapeChar (c : Char) : Option Char :=
  if c = '"' then some '"'
  else if c = '\\' then some '\\'
  else if c = 'n' then some '\n'
  else if c = 't' then some '\t'
  else if c = 'r' then some '\r'
  else none

/-- Parse the body of a TOML basic string up to its closing quote,
undoing `escapeChar`; returns the decoded value and the rest of the
input after the closing quote. -/
def parseEscaped : List Char → Option (List Char × List Char)
  | [] => none
  | c :: rest =>
    if c = '"' then some ([], rest)
    else if c = '\\' then
      match rest with
      | [] => none
      | e :: rest2 =>
        match unescapeChar e, parseEscaped rest2 with
        | some u, some (s, r) => some (u :: s, r)
        | _, _ => none
    else if c = '\n' then none
    else
      match parseEscaped rest with
      | some (s, r) => some (c :: s, r)
      | none => none

/-- Parse one `key = "value"` line: the key runs up to the first space,
then ` = "` introduces the basic string, closed by `"` and a newline.
Returns the key, the decoded value, and the rest of the input. -/
def parseKV : List Char → Option ((List Char × List Char) × List Char)
  | [] => none
  | c :: rest =>
    if c = ' ' then
      match rest with
      | '=' :: ' ' :: '"' :: rest2 =>
        match parseEscaped rest2 with
        | some (v, '\n' :: r2) => some (([], v), r2)
        | _ => none
      | _ => none
    else if c = '\n' then none
    else if c = '"' then none
    else
      match parseKV rest with
      | some (kv, r) => some ((c :: kv.1, kv.2), r)
      | none => none

/-- Parse exactly the four `key = "value"` lines of a config file, in
file order, requiring the input to be fully consumed. -/
def parseEntries4 (l : List Char) : Option (List (List Char × List Char)) :=
  (parseKV l).bind fun p1 =>
  (parseKV p1.2).bind fun p2 =>
  (parseKV p2.2).bind fun p3 =>
  (parseKV p3.2).bind fun p4 =>
  if p4.2 = [] then some [p1.1, p2.1, p3.1, p4.1] else none

/-- First value bound to a key in a key-value list. -/
def lookupKey (k : List Char) : List (List Char × List Char) → Option (List Char)
  | [] => none
  | p :: ps => if p.1 = k then some p.2 else lookupKey k ps

/-- TOML deserialization of an `XnConfig` (the `toml::from_str` call in
`load_config`): the four required keys may appear in any order; duplicate
keys are rejected (as TOML does); a file missing any of the four keys is
a parse failure, never a defaulted config. -/
def parseConfigChars (l : List Char) : Option XnConfig :=
  (parseEntries4 l).bind fun es =>
  if (es.map Prod.fst).Nodup then
    (lookupKey compilerKey es).bind fun cp =>
    (lookupKey interpKey es).bind fun ip =>
    (lookupKey vmKey es).bind fun vp =>
    (lookupKey projectKey es).bind fun pn =>
    some ⟨⟨cp⟩, ⟨ip⟩, ⟨vp⟩, ⟨pn⟩⟩
  else none

/-- String-level wrapper of `parseConfigChars`. -/
def parseConfig (s : String) : Option XnConfig :=
  parseConfigChars s.data

/-- The key sequence of a serialized config file, in file order. -/
def entryKeys (l : List Char) : Option (List String) :=
  (parseEntries4 l).map fun es => es.map fun p => (⟨p.1⟩ : String)

/-- Strict lexicographic (alphabetical) order on character lists, used to
state what "key-sorted" would mean for the serialized file. -/
def lexLt : List Char → List Char → Bool
  | [], [] => false
  | [], _ :: _ => true
  | _ :: _, [] => false
  | a :: as, b :: bs => if a < b then true else if b < a then false else lexLt as bs

/-- Error kinds of the operations, mirroring §7 of the design and the
`anyhow` errors the source produces. -/
inductive CError where
  | configNotFound
  | configParseError
  | emptyInput
  | ioError
  | spawnError
deriving DecidableEq, Repr

/-- Decidable equality of results, so that concrete runs of the handlers
can be checked by evaluation. -/
instance {ε α : Type} [DecidableEq ε] [DecidableEq α] : DecidableEq (Except ε α)
  | .error a, .error b =>
    if h : a = b then .isTrue (congrArg Except.error h)
    else .isFalse fun hc => h (Except.error.inj hc)
  | .error _, .ok _ => .isFalse fun hc => Except.noConfusion hc
  | .ok _, .error _ => .isFalse fun hc => Except.noConfusion hc
  | .ok a, .ok b =>
    if h : a = b then .isTrue (congrArg Except.ok h)
    else .isFalse fun hc => h (Except.ok.inj hc)

/-- `load_config` (src/config.rs): `fs::read_to_string` fails on an absent
file (ConfigNotFound); `toml::from_str` fails on content that does not
decode into the four required fields (ConfigParseError). -/
def load_config (file : Option String) : Except CError XnConfig :=
  match file with
  | none => .error .configNotFound
  | some s =>
    match parseConfig s with
    | none => .error .configParseError
    | some c => .ok c

/-- Process exit code of `main` (src/main.rs): `Ok` exits 0, any `Err`
is printed by `anyhow` and exits non-zero. -/
def exitCode {α : Type} (r : Except CError α) : Nat :=
  match r with
  | .ok _ => 0
  | .error _ => 1

/-- One entry yielded by the recursive directory walk: its path and
whether it is a regular file. -/
structure DirEntry where
  path : String
  isFile : Bool
deriving DecidableEq, Repr

/-- The extension of a file name after its first character, i.e. the part
after the last dot, as Rust's `Path::extension` computes it (a leading
dot, as in `.bashrc`, does not start an extension). -/
def extSplit : List Char → Option (List Char)
  | [] => none
  | c :: rest =>
    if c = '.' then
      match extSplit rest with
      | some e => some e
      | none => some rest
    else extSplit rest

/-- The final path component (the part after the last slash). -/
def baseName (p : List Char) : List Char :=
  (p.reverse.takeWhile (fun c => c ≠ '/')).reverse

/-- Rust's `Path::extension` on the modelled path strings. -/
def pathExtension (p : String) : Option String :=
  match baseName p.data with
  | [] => none
  | _ :: rest => (extSplit rest).map fun e => (⟨e⟩ : String)

/-- `gather_xn_files` (src/commands.rs): walk the directory, skip entries
that errored (`if let Ok(e)`; an absent directory yields one such entry),
and collect every regular file whose extension is `xn`, in walk order.
The return type is a plain list — this function has no error channel. -/
def gather_xn_files (entries : List (Option DirEntry)) : List String :=
  entries.filterMap fun entry =>
    match entry with
    | none => none
    | some e =>
      if e.isFile then
        match pathExtension e.path with
        | some ext => if ext = "xn" then some e.path else none
        | none => none
      else none

/-- The merge loop of `concatenate_xn_files` (src/commands.rs): for each
gathered file in order, read it (`?` aborts on an I/O error) and append
the marker comment naming its path, a newline, the file's verbatim
content, and a trailing newline to the accumulator. -/
def mergeLoop (readFile : String → Option String) : List String → String → Option String
  | [], acc => some acc
  | f :: fs, acc =>
    match readFile f with
    | none => none
    | some c =>
      mergeLoop readFile fs (acc ++ "// Start of file: " ++ f ++ "\n" ++ c ++ "\n")

/-- The merged text the claim describes: per file in order, the marker
comment naming the file's path, a newline, then the file's verbatim
content (and the separating newline the source appends). -/
def mergedText (content : String → String) : List String → String
  | [] => ""
  | f :: fs => "// Start of file: " ++ f ++ "\n" ++ content f ++ "\n" ++ mergedText content fs

/-- `concatenate_xn_files` (src/commands.rs): gather the `.xn` files,
fail (`anyhow::bail`) when none were found, else write the merged text to
the fixed path `out/output.xn` and return that path.  The result carries
the path and the full content written (`fs::write` replaces any previous
content of the file). -/
def concatenate_xn_files (entries : List (Option DirEntry))
    (readFile : String → Option String) : Except CError (String × String) :=
  let xn := gather_xn_files entries
  if xn = [] then .error .emptyInput
  else
    match mergeLoop readFile xn "" with
    | none => .error .ioError
    | some s => .ok ("out/output.xn", s)

/-- `handle_build` (src/commands.rs).  Inputs: the optional `--source`,
the `--output` path, the content of `xn.toml`, the `src/` walk entries,
the file reader, the previous content of `out/output.xn`, and the spawn
oracle.  Output on success: the content of `out/output.xn` after the
operation, and the spawned command (program, argument list).  The source
runs `.spawn()?.wait()?;`, so `childExit` — the status `wait` returns —
is discarded and the function returns `Ok` whenever the spawn itself
succeeded. -/
def handle_build (source : Option String) (output : String)
    (cfgFile : Option String) (entries : List (Option DirEntry))
    (readFile : String → Option String) (prevOut : Option String)
    (spawnOk : Bool) (childExit : Nat) :
    Except CError (Option String × String × List String) :=
  match load_config cfgFile with
  | .error e => .error e
  | .ok config =>
    let resolved : Except CError (String × Option String) :=
      match source with
      | some p => .ok (p, prevOut)
      | none =>
        match concatenate_xn_files entries readFile with
        | .error e => .error e
        | .ok (p, s) => .ok (p, some s)
    match resolved with
    | .error e => .error e
    | .ok (sourceToCompile, outFile) =>
      if spawnOk then
        .ok (outFile, config.compiler_path, [sourceToCompile, "-o", output])
      else .error .spawnError

/-- `handle_run` (src/commands.rs).  Output on success: `none` when no
spawn happened (the "No .xn files found to run." early return), else the
spawned command.  As in `handle_build`, `childExit` is the status the
source's `wait()?` returns and then discards. -/
def handle_run (files : List String) (entry : Option String)
    (cfgFile : Option String) (entries : List (Option DirEntry))
    (spawnOk : Bool) (childExit : Nat) :
    Except CError (Option (String × List String)) :=
  match load_config cfgFile with
  | .error _e => .error _e
  | .ok config =>
    let files := if files = [] then gather_xn_files entries else files
    if files = [] then .ok none
    else if spawnOk then
      .ok (some (config.interpreter_path,
        files ++ (match entry with | some e => ["-e", e] | none => [])))
    else .error .spawnError

/-- `handle_vm` (src/commands.rs).  Output on success: the spawned
command; `childExit` is again the discarded `wait` status. -/
def handle_vm (wasmFile : String) (args : List String)
    (cfgFile : Option String) (spawnOk : Bool) (childExit : Nat) :
    Except CError (String × List String) :=
  match load_config cfgFile with
  | .error e => .error e
  | .ok config =>
    if spawnOk then .ok (config.vm_path, wasmFile :: args)
    else .error .spawnError

/-- The update the set mode of `handle_config` performs: assign the named
field when the key is one of the four known keys, else leave the config
unchanged (the source prints "Unknown config key" on that branch). -/
def setField (c : XnConfig) (k v : String) : XnConfig :=
  if k = "compiler_path" then { c with compiler_path := v }
  else if k = "interpreter_path" then { c with interpreter_path := v }
  else if k = "vm_path" then { c with vm_path := v }
  else if k = "project_name" then { c with project_name := v }
  else c

/-- The lookup the get mode of `handle_config` performs. -/
def getField (c : XnConfig) (k : String) : Option String :=
  if k = "compiler_path" then some c.compiler_path
  else if k = "interpreter_path" then some c.interpreter_path
  else if k = "vm_path" then some c.vm_path
  else if k = "project_name" then some c.project_name
  else none

/-- `handle_config` (src/commands.rs).  Input: the two optional CLI
arguments and the content of `xn.toml`; output: the content of `xn.toml`
after the operation.  In set mode the source updates the matching field
(or prints "Unknown config key" and leaves the config as loaded) and then
unconditionally calls `save_config`; in get mode and print-all mode it
writes nothing. -/
def handle_config (key value : Option String) (file : Option String) :
    Except CError (Option String) :=
  match load_config file with
  | .error e => .error e
  | .ok config =>
    match key, value with
    | some k, some v => .ok (some (save_config (setField config k v)))
    | some _, none => .ok file
    | none, _ => .ok file

/-- The four recognised configuration keys. -/
def knownKeys : List String :=
  ["compiler_path", "interpreter_path", "vm_path", "project_name"]

/-- A concrete configuration, as `handle_init` would create for a project
named `demo`. -/
def sampleConfig : XnConfig := ⟨"xcc", "xin", "xrun", "demo"⟩

/-- The serialized form of `sampleConfig`. -/
def sampleToml : String := save_config sampleConfig

/-- A `src/` walk with a single source file. -/
def sampleEntries : List (Option DirEntry) := [some ⟨"src/main.xn", true⟩]

/-- A reader for `sampleEntries`. -/
def sampleRead : String → Option String :=
  fun p => if p = "src/main.xn" then some "let x = 1\n" else none

/-- A well-formed `xn.toml` whose keys appear in an order different from
the one `save_config` writes (TOML is order-insensitive on read, so this
file loads fine). -/
def permutedToml : String :=
  "project_name = \"demo\"\nvm_path = \"xrun\"\ninterpreter_path = \"xin\"\ncompiler_path = \"xcc\"\n"

/-- A `src/` walk with two source files. -/
def mergeEntries : List (Option DirEntry) :=
  [some ⟨"src/a.xn", true⟩, some ⟨"src/b.xn", true⟩]

/-- A reader for `mergeEntries`. -/
def mergeRead : String → Option String :=
  fun p => if p = "src/a.xn" then some "AAA" else if p = "src/b.xn" then some "BBB" else none

/-- The contents of the files of `mergeEntries`, as a total assignment. -/
def mergeContent : String → String :=
  fun p => if p = "src/a.xn" then "AAA" else "BBB"

lemma escapeStr_nil : escapeStr [] = [] := rfl

lemma escapeStr_cons (c : Char) (s : List Char) :
    escapeStr (c :: s) = escapeChar c ++ escapeStr s := by
  simp [escapeStr]

lemma parseEscaped_quote (r : List Char) : parseEscaped ('"' :: r) = some ([], r) := by
  unfold parseEscaped; rfl

lemma parseEscaped_backslash (e : Char) (r : List Char) :
    parseEscaped ('\\' :: e :: r) =
      match unescapeChar e, parseEscaped r with
      | some u, some (s, r2) => some (u :: s, r2)
      | _, _ => none := by
  conv_lhs => rw [parseEscaped.eq_def]
  simp

lemma parseEscaped_other (c : Char) (r : List Char)
    (h1 : c ≠ '"') (h2 : c ≠ '\\') (h3 : c ≠ '\n') :
    parseEscaped (c :: r) =
      match parseEscaped r with
      | some (s, r2) => some (c :: s, r2)
      | none => none := by
  rw [parseEscaped.eq_def]
  simp [h1, h2, h3]

/-- Decoding is a left inverse of encoding for TOML basic strings: the
escaped text followed by the closing quote parses back to the original
value. -/
lemma parseEscaped_escape (s rest : List Char) :
    parseEscaped (escapeStr s ++ '"' :: rest) = some (s, rest) := by
  induction s with
  | nil => simp [escapeStr_nil, parseEscaped_quote]
  | cons c s ih =>
    rw [escapeStr_cons]
    by_cases h1 : c = '"'
    · subst h1
      simp [escapeChar, parseEscaped_backslash, unescapeChar, ih]
    · by_cases h2 : c = '\\'
      · subst h2
        simp [escapeChar, parseEscaped_backslash, unescapeChar, ih]
      · by_cases h3 : c = '\n'
        · subst h3
          simp [escapeChar, parseEscaped_backslash, unescapeChar, ih]
        · by_cases h4 : c = '\t'
          · subst h4
            simp [escapeChar, parseEscaped_backslash, unescapeChar, ih]
          · by_cases h5 : c = '\r'
            · subst h5
              simp [escapeChar, parseEscaped_backslash, unescapeChar, ih]
            · have he : escapeChar c = [c] := by simp [escapeChar, h1, h2, h3, h4, h5]
              rw [he]
              simp only [List.cons_append, List.nil_append]
              rw [parseEscaped_other c _ h1 h2 h3, ih]

lemma parseKV_space (r : List Char) :
    parseKV (' ' :: '=' :: ' ' :: '"' :: r) =
      match parseEscaped r with
      | some (v, '\n' :: r2) => some (([], v), r2)
      | _ => none := by
  unfold parseKV; rfl

lemma parseKV_other (c : Char) (r : List Char)
    (h1 : c ≠ ' ') (h2 : c ≠ '\n') (h3 : c ≠ '"') :
    parseKV (c :: r) =
      match parseKV r with
      | some (kv, r2) => some ((c :: kv.1, kv.2), r2)
      | none => none := by
  rw [parseKV.eq_def]
  simp [h1, h2, h3]

/-- A serialized `key = "value"` line parses back to its key and value,
leaving exactly the remainder. -/
lemma parseKV_line (k v rest : List Char)
    (hk : ∀ c ∈ k, c ≠ ' ' ∧ c ≠ '\n' ∧ c ≠ '"') :
    parseKV (kvLine k v rest) = some ((k, v), rest) := by
  induction k with
  | nil =>
    show parseKV ([] ++ ' ' :: '=' :: ' ' :: '"' :: (escapeStr v ++ '"' :: '\n' :: rest)) = _
    rw [List.nil_append, parseKV_space, parseEscaped_escape]
    rfl
  | cons c k ih =>
    obtain ⟨h1, h2, h3⟩ := hk c (List.mem_cons_self c k)
    have hr : kvLine (c :: k) v rest = c :: kvLine k v rest := by
      simp [kvLine]
    rw [hr, parseKV_other c _ h1 h2 h3, ih (fun x hx => hk x (List.mem_cons_of_mem c hx))]

lemma parseKV_key1 (v rest : List Char) :
    parseKV (kvLine compilerKey v rest) = some ((compilerKey, v), rest) :=
  parseKV_line _ _ _ (by decide)

lemma parseKV_key2 (v rest : List Char) :
    parseKV (kvLine interpKey v rest) = some ((interpKey, v), rest) :=
  parseKV_line _ _ _ (by decide)

lemma parseKV_key3 (v rest : List Char) :
    parseKV (kvLine vmKey v rest) = some ((vmKey, v), rest) :=
  parseKV_line _ _ _ (by decide)

lemma parseKV_key4 (v rest : List Char) :
    parseKV (kvLine projectKey v rest) = some ((projectKey, v), rest) :=
  parseKV_line _ _ _ (by decide)

/-- Parsing the serialized file recovers the four entries, in the order
`save_config` wrote them. -/
lemma parseEntries4_serialize (c : XnConfig) :
    parseEntries4 (serializeConfigChars c) =
      some [(compilerKey, c.compiler_path.data),
            (interpKey, c.interpreter_path.data),
            (vmKey, c.vm_path.data),
            (projectKey, c.project_name.data)] := by
  simp only [serializeConfigChars, parseEntries4,
    parseKV_key1, parseKV_key2, parseKV_key3, parseKV_key4, Option.some_bind, if_true]

/-- Round-trip of the modelled TOML layer: parsing the serialization of
any config yields exactly that config. -/
lemma parse_serialize (c : XnConfig) : parseConfig (save_config c) = some c := by
  show parseConfigChars (serializeConfigChars c) = some c
  rw [parseConfigChars, parseEntries4_serialize]
  simp only [Option.some_bind, List.map_cons, List.map_nil]
  rw [if_pos (by decide)]
  have h21 : compilerKey ≠ interpKey := by decide
  have h31 : compilerKey ≠ vmKey := by decide
  have h32 : interpKey ≠ vmKey := by decide
  have h41 : compilerKey ≠ projectKey := by decide
  have h42 : interpKey ≠ projectKey := by decide
  have h43 : vmKey ≠ projectKey := by decide
  simp only [lookupKey, h21, h31, h32, h41, h42, h43, if_true, if_false, Option.some_bind]

/-- A key that `lookupKey` resolves occurs among the keys of the list. -/
lemma lookupKey_mem (k : List Char) (ps : List (List Char × List Char)) (v : List Char)
    (h : lookupKey k ps = some v) : k ∈ ps.map Prod.fst := by
  induction ps with
  | nil => simp [lookupKey] at h
  | cons p ps ih =>
    rw [lookupKey] at h
    by_cases hp : p.1 = k
    · simp [hp]
    · rw [if_neg hp] at h
      simp [ih h]

/-- When every gathered file reads successfully, the merge loop produces
the accumulator followed by the marker-and-content block of each file in
order. -/
lemma mergeLoop_eq (readFile : String → Option String) (content : String → String)
    (files : List String) (h : ∀ f ∈ files, readFile f = some (content f)) (acc : String) :
    mergeLoop readFile files acc = some (acc ++ mergedText content files) := by
  induction files generalizing acc with
  | nil =>
    simp only [mergeLoop, mergedText]
    rw [String.append_empty]
  | cons f fs ih =>
    have step : mergeLoop readFile (f :: fs) acc =
        mergeLoop readFile fs
          (acc ++ "// Start of file: " ++ f ++ "\n" ++ content f ++ "\n") := by
      rw [mergeLoop, h f (List.mem_cons_self f fs)]
    rw [step, ih (fun x hx => h x (List.mem_cons_of_mem f hx)) _]
    congr 1
    apply String.ext
    simp only [mergedText, String.data_append, List.append_assoc]

/-- A directory walk containing no regular file with the `xn` extension
gathers nothing. -/
lemma gather_eq_nil (entries : List (Option DirEntry))
    (h : ∀ d : DirEntry, some d ∈ entries → d.isFile = true →
      pathExtension d.path ≠ some "xn") :
    gather_xn_files entries = [] := by
  induction entries with
  | nil => rfl
  | cons e es ih =>
    have ihn : gather_xn_files es = [] :=
      ih fun d hd hf => h d (List.mem_cons_of_mem e hd) hf
    cases e with
    | none => simpa [gather_xn_files, List.filterMap_cons] using ihn
    | some d =>
      rw [gather_xn_files, List.filterMap_cons]
      cases hf : d.isFile with
      | false => simpa [hf, gather_xn_files] using ihn
      | true =>
        cases hx : pathExtension d.path with
        | none => simpa [hf, hx, gather_xn_files] using ihn
        | some ext =>
          have hne : ext ≠ "xn" := by
            intro hcon
            exact h d (List.mem_cons_self _ _) hf (hcon ▸ hx)
          simpa [hf, hx, hne, gather_xn_files] using ihn

/-- Loading a file whose content parses yields exactly the parsed config. -/
lemma load_config_some (s : String) (c : XnConfig) (h : parseConfig s = some c) :
    load_config (some s) = .ok c := by
  simp [load_config, h]

/-- When the gathered set is non-empty and every file reads successfully,
`concatenate_xn_files` writes the merged text to `out/output.xn`. -/
lemma concatenate_ok (entries : List (Option DirEntry))
    (readFile : String → Option String) (content : String → String)
    (hne : gather_xn_files entries ≠ [])
    (hread : ∀ f ∈ gather_xn_files entries, readFile f = some (content f)) :
    concatenate_xn_files entries readFile =
      .ok ("out/output.xn", mergedText content (gather_xn_files entries)) := by
  rw [concatenate_xn_files]
  simp only [if_neg hne]
  rw [mergeLoop_eq readFile content _ hread ""]
  rw [String.empty_append]

/-- Claim C4: for every valid config value (four string fields), saving
it and loading the saved text returns a config equal to the original
(round-trip fidelity of `save_config` followed by `load_config`). -/
theorem c4_save_load_roundtrip (c : XnConfig) :
    load_config (some (save_config c)) = .ok c :=
  load_config_some _ _ (parse_serialize c)

/-- Claim C7: `gather_xn_files` has no error channel (its result type is
a plain list); on a walk of an absent directory (a single errored entry)
it returns the empty set, and on any walk containing no regular file
with the `xn` extension it returns the empty set. -/
theorem c7_gather_empty_never_errors :
    gather_xn_files [none] = [] ∧
    ∀ entries : List (Option DirEntry),
      (∀ d : DirEntry, some d ∈ entries → d.isFile = true →
        pathExtension d.path ≠ some "xn") →
      gather_xn_files entries = [] :=
  ⟨rfl, gather_eq_nil⟩

/-- Claim C7 witness: a walk consisting of an errored entry, a non-`.xn`
regular file and a directory gathers nothing. -/
theorem c7_gather_empty_never_errors_witness :
    gather_xn_files
      [none, some ⟨"src/readme.txt", true⟩, some ⟨"src/sub", false⟩] = [] := by
  apply c7_gather_empty_never_errors.2
  intro d hd hf
  simp only [List.mem_cons, List.not_mem_nil, or_false] at hd
  rcases hd with h | h | h
  · exact Option.noConfusion h
  · obtain rfl := Option.some.inj h
    decide
  · obtain rfl := Option.some.inj h
    exact absurd hf (by decide)

/-- Claim C1: refuted by the code — the spec requires a non-zero child
exit status to fail the enclosing operation, but every handler runs
`.spawn()?.wait()?;` and discards the `ExitStatus` that `wait` returns.
With a loadable config and a successful spawn whose child exits with
status 1, build, run and vm all return `Ok` and the process exits 0;
indeed the result of `handle_build` does not depend on the child's exit
status at all. -/
theorem c1_nonzero_child_exit_swallowed :
    exitCode (handle_build none "out/output.wasm" (some sampleToml) sampleEntries
      sampleRead none true 1) = 0 ∧
    exitCode (handle_run ["src/main.xn"] none (some sampleToml) sampleEntries true 1) = 0 ∧
    exitCode (handle_vm "out/output.wasm" [] (some sampleToml) true 1) = 0 ∧
    ∀ code : Nat,
      handle_build none "out/output.wasm" (some sampleToml) sampleEntries
          sampleRead none true code =
        handle_build none "out/output.wasm" (some sampleToml) sampleEntries
          sampleRead none true 0 :=
  ⟨by decide, by decide, by decide, fun _ => rfl⟩

/-- Claim C5: `load_config` on a missing file fails with the not-found
error; on content that does not decode fails with the parse error; a
successful load returns exactly the parsed content (never a partial or
defaulted config); and any content that parses successfully provides all
four required keys, so a file missing one of them is a parse failure. -/
theorem c5_load_strict :
    load_config none = .error .configNotFound ∧
    (∀ s : String, parseConfig s = none →
      load_config (some s) = .error .configParseError) ∧
    (∀ (s : String) (c : XnConfig), load_config (some s) = .ok c →
      parseConfig s = some c) ∧
    (∀ (s : String) (c : XnConfig), parseConfig s = some c →
      ∃ es, parseEntries4 s.data = some es ∧
        compilerKey ∈ es.map Prod.fst ∧ interpKey ∈ es.map Prod.fst ∧
        vmKey ∈ es.map Prod.fst ∧ projectKey ∈ es.map Prod.fst) := by
  refine ⟨rfl, ?_, ?_, ?_⟩
  · intro s h
    simp [load_config, h]
  · intro s c h
    rw [load_config] at h
    cases hp : parseConfig s with
    | none => rw [hp] at h; exact Except.noConfusion h
    | some c2 => rw [hp] at h; exact congrArg some (Except.ok.inj h)
  · intro s c h
    rw [parseConfig, parseConfigChars] at h
    cases he : parseEntries4 s.data with
    | none => rw [he] at h; exact Option.noConfusion h
    | some es =>
      rw [he, Option.some_bind] at h
      by_cases hn : (es.map Prod.fst).Nodup
      · rw [if_pos hn] at h
        refine ⟨es, rfl, ?_, ?_, ?_, ?_⟩
        · cases h1 : lookupKey compilerKey es with
          | none => rw [h1, Option.none_bind] at h; exact Option.noConfusion h
          | some cp => exact lookupKey_mem _ _ _ h1
        · cases h1 : lookupKey compilerKey es with
          | none => rw [h1, Option.none_bind] at h; exact Option.noConfusion h
          | some cp =>
            rw [h1, Option.some_bind] at h
            cases h2 : lookupKey interpKey es with
            | none => rw [h2, Option.none_bind] at h; exact Option.noConfusion h
            | some ip => exact lookupKey_mem _ _ _ h2
        · cases h1 : lookupKey compilerKey es with
          | none => rw [h1, Option.none_bind] at h; exact Option.noConfusion h
          | some cp =>
            rw [h1, Option.some_bind] at h
            cases h2 : lookupKey interpKey es with
            | none => rw [h2, Option.none_bind] at h; exact Option.noConfusion h
            | some ip =>
              rw [h2, Option.some_bind] at h
              cases h3 : lookupKey vmKey es with
              | none => rw [h3, Option.none_bind] at h; exact Option.noConfusion h
              | some vp => exact lookupKey_mem _ _ _ h3
        · cases h1 : lookupKey compilerKey es with
          | none => rw [h1, Option.none_bind] at h; exact Option.noConfusion h
          | some cp =>
            rw [h1, Option.some_bind] at h
            cases h2 : lookupKey interpKey es with
            | none => rw [h2, Option.none_bind] at h; exact Option.noConfusion h
            | some ip =>
              rw [h2, Option.some_bind] at h
              cases h3 : lookupKey vmKey es with
              | none => rw [h3, Option.none_bind] at h; exact Option.noConfusion h
              | some vp =>
                rw [h3, Option.some_bind] at h
                cases h4 : lookupKey projectKey es with
                | none => rw [h4, Option.none_bind] at h; exact Option.noConfusion h
                | some pn => exact lookupKey_mem _ _ _ h4
      · rw [if_neg hn] at h
        exact Option.noConfusion h

/-- Claim C5 witness: a three-line file (missing `project_name`) does not
parse, and loading it yields the parse error; a file with undecodable
content likewise. -/
theorem c5_load_strict_witness :
    parseConfig "compiler_path = \"xcc\"\ninterpreter_path = \"xin\"\nvm_path = \"xrun\"\n" =
      none ∧
    load_config
      (some "compiler_path = \"xcc\"\ninterpreter_path = \"xin\"\nvm_path = \"xrun\"\n") =
      .error .configParseError :=
  ⟨by decide, c5_load_strict.2.1 _ (by decide)⟩

/-- Claim C8: `handle_run` with no files given on the command line and a
gather that finds nothing returns success with no spawn recorded, and
the process exit code is 0. -/
theorem c8_run_empty_no_spawn (cfg : String) (c : XnConfig)
    (entries : List (Option DirEntry)) (entry : Option String)
    (spawnOk : Bool) (childExit : Nat)
    (hc : parseConfig cfg = some c) (hg : gather_xn_files entries = []) :
    handle_run [] entry (some cfg) entries spawnOk childExit = .ok none ∧
    exitCode (handle_run [] entry (some cfg) entries spawnOk childExit) = 0 := by
  have hl : load_config (some cfg) = .ok c := load_config_some _ _ hc
  constructor
  · rw [handle_run.eq_def, hl]
    simp [hg]
  · rw [handle_run.eq_def, hl]
    simp [hg, exitCode]

/-- Claim C8 witness: with a loadable config and an empty `src/` walk,
`handle_run` succeeds without spawning. -/
theorem c8_run_empty_no_spawn_witness :
    handle_run [] none (some sampleToml) [] true 0 = .ok none ∧
    exitCode (handle_run [] none (some sampleToml) [] true 0) = 0 :=
  c8_run_empty_no_spawn sampleToml sampleConfig [] none true 0 (by decide) rfl

/-- Claim C2 counterexample: with an unknown key and a value, the config
operation exits successfully but does not leave the persisted file
unchanged — the set mode calls `save_config` unconditionally, rewriting
the file in canonical serialized form.  On a well-formed config file
whose keys are stored in a different order, the on-disk bytes change. -/
theorem c2_counterexample :
    handle_config (some "nope") (some "x") (some permutedToml) =
      .ok (some "compiler_path = \"xcc\"\ninterpreter_path = \"xin\"\nvm_path = \"xrun\"\nproject_name = \"demo\"\n") ∧
    ("compiler_path = \"xcc\"\ninterpreter_path = \"xin\"\nvm_path = \"xrun\"\nproject_name = \"demo\"\n" : String) ≠
      permutedToml ∧
    exitCode (handle_config (some "nope") (some "x") (some permutedToml)) = 0 := by
  refine ⟨by decide, by decide, by decide⟩

/-- Claim C2 (amended): with an unknown key the process exits 0 in both
modes; in get mode (no value) the persisted file is untouched; in set
mode (value given) the file is rewritten with the serialization of the
unchanged loaded config — the four field values persist (the rewritten
file still parses to the loaded config), but the on-disk bytes change
whenever the file was not already in canonical serialized form. -/
theorem c2_unknown_key_soft (content : String) (c : XnConfig) (k v : String)
    (hc : parseConfig content = some c) (hk : k ∉ knownKeys) :
    handle_config (some k) none (some content) = .ok (some content) ∧
    exitCode (handle_config (some k) none (some content)) = 0 ∧
    handle_config (some k) (some v) (some content) = .ok (some (save_config c)) ∧
    exitCode (handle_config (some k) (some v) (some content)) = 0 ∧
    parseConfig (save_config c) = some c := by
  have hl : load_config (some content) = .ok c := load_config_some _ _ hc
  have h1 : k ≠ "compiler_path" := fun h => hk (h ▸ by decide)
  have h2 : k ≠ "interpreter_path" := fun h => hk (h ▸ by decide)
  have h3 : k ≠ "vm_path" := fun h => hk (h ▸ by decide)
  have h4 : k ≠ "project_name" := fun h => hk (h ▸ by decide)
  have hset : setField c k v = c := by
    rw [setField, if_neg h1, if_neg h2, if_neg h3, if_neg h4]
  refine ⟨?_, ?_, ?_, ?_, parse_serialize c⟩
  · rw [handle_config, hl]
  · rw [handle_config, hl]; rfl
  · rw [handle_config, hl]
    show Except.ok (some (save_config (setField c k v))) = _
    rw [hset]
  · rw [handle_config, hl]; rfl

/-- Claim C2 witness: instantiating the amended claim at the canonical
sample file and the unknown key `nope`. -/
theorem c2_unknown_key_soft_witness :
    handle_config (some "nope") none (some sampleToml) = .ok (some sampleToml) ∧
    exitCode (handle_config (some "nope") none (some sampleToml)) = 0 ∧
    handle_config (some "nope") (some "x") (some sampleToml) =
      .ok (some (save_config sampleConfig)) ∧
    exitCode (handle_config (some "nope") (some "x") (some sampleToml)) = 0 ∧
    parseConfig (save_config sampleConfig) = some sampleConfig :=
  c2_unknown_key_soft sampleToml sampleConfig "nope" "x" (by decide) (by decide)

/-- Claim C3 counterexample: the serialized file's key sequence is
`compiler_path, interpreter_path, vm_path, project_name`, and this is
not alphabetical: `project_name` alphabetically precedes `vm_path` but
is written after it. -/
theorem c3_counterexample :
    entryKeys (serializeConfigChars ⟨"xcc", "xin", "xrun", "demo"⟩) =
      some ["compiler_path", "interpreter_path", "vm_path", "project_name"] ∧
    lexLt "project_name".data "vm_path".data = true := by
  refine ⟨by decide, by decide⟩

/-- Claim C3 (amended): `save_config` serializes the four fields
deterministically, one `key = "value"` line each, in the struct's
declaration order `compiler_path, interpreter_path, vm_path,
project_name` (serde field order) — not in alphabetical key order. -/
theorem c3_declaration_order (c : XnConfig) :
    entryKeys (serializeConfigChars c) =
      some ["compiler_path", "interpreter_path", "vm_path", "project_name"] := by
  rw [entryKeys, parseEntries4_serialize]
  rfl

/-- Claim C6: merging an empty gathered set fails with the empty-input
error; merging a non-empty set (all files readable) writes to the merged
file, for each source file in gathered order, the marker comment naming
that file's path immediately followed by that file's verbatim content. -/
theorem c6_merge_marker_content :
    (∀ (entries : List (Option DirEntry)) (readFile : String → Option String),
      gather_xn_files entries = [] →
      concatenate_xn_files entries readFile = .error .emptyInput) ∧
    (∀ (entries : List (Option DirEntry)) (readFile : String → Option String)
        (content : String → String),
      gather_xn_files entries ≠ [] →
      (∀ f ∈ gather_xn_files entries, readFile f = some (content f)) →
      concatenate_xn_files entries readFile =
        .ok ("out/output.xn", mergedText content (gather_xn_files entries))) := by
  constructor
  · intro entries readFile h
    rw [concatenate_xn_files]
    simp [h]
  · intro entries readFile content hne hread
    exact concatenate_ok entries readFile content hne hread

/-- Claim C6 witness: two gathered files merge into the two
marker-prefixed blocks in gathered order. -/
theorem c6_merge_marker_content_witness :
    gather_xn_files mergeEntries = ["src/a.xn", "src/b.xn"] ∧
    concatenate_xn_files mergeEntries mergeRead =
      .ok ("out/output.xn", mergedText mergeContent (gather_xn_files mergeEntries)) ∧
    mergedText mergeContent (gather_xn_files mergeEntries) =
      "// Start of file: src/a.xn\nAAA\n// Start of file: src/b.xn\nBBB\n" :=
  ⟨by decide, c6_merge_marker_content.2 mergeEntries mergeRead mergeContent
    (by decide) (by decide), by decide⟩

/-- Claim C9: on a loadable config, the set mode of `handle_config` with
a known key saves a config in which exactly the named field carries the
new value, the other three known keys reading back their loaded values. -/
theorem c9_set_field_frame (content : String) (c : XnConfig) (k v : String)
    (hc : parseConfig content = some c) (hk : k ∈ knownKeys) :
    handle_config (some k) (some v) (some content) =
      .ok (some (save_config (setField c k v))) ∧
    getField (setField c k v) k = some v ∧
    ∀ k2 ∈ knownKeys, k2 ≠ k → getField (setField c k v) k2 = getField c k2 := by
  have hl : load_config (some content) = .ok c := load_config_some _ _ hc
  refine ⟨by rw [handle_config, hl], ?_, ?_⟩
  · simp only [knownKeys, List.mem_cons, List.not_mem_nil, or_false] at hk
    rcases hk with rfl | rfl | rfl | rfl <;> simp [setField, getField]
  · intro k2 hk2 hne
    simp only [knownKeys, List.mem_cons, List.not_mem_nil, or_false] at hk hk2
    rcases hk with rfl | rfl | rfl | rfl <;>
      rcases hk2 with rfl | rfl | rfl | rfl <;>
        first
          | exact absurd rfl hne
          | simp [setField, getField]

/-- Claim C9 witness: setting `vm_path` on the sample config updates that
field and leaves `compiler_path` (and the others) at their loaded
values. -/
theorem c9_set_field_frame_witness :
    handle_config (some "vm_path") (some "myvm") (some sampleToml) =
      .ok (some (save_config (setField sampleConfig "vm_path" "myvm"))) ∧
    getField (setField sampleConfig "vm_path" "myvm") "vm_path" = some "myvm" ∧
    getField (setField sampleConfig "vm_path" "myvm") "compiler_path" =
      getField sampleConfig "compiler_path" :=
  ⟨(c9_set_field_frame sampleToml sampleConfig "vm_path" "myvm" (by decide) (by decide)).1,
   (c9_set_field_frame sampleToml sampleConfig "vm_path" "myvm" (by decide) (by decide)).2.1,
   (c9_set_field_frame sampleToml sampleConfig "vm_path" "myvm" (by decide) (by decide)).2.2
     "compiler_path" (by decide) (by decide)⟩

/-- Claim C10: `handle_build` without an explicit source writes the
merged input to the fixed path `out/output.xn` — whatever the `--output`
argument and whatever the file previously contained — and invokes the
compiler with exactly that path as its input argument. -/
theorem c10_build_fixed_merge_path (cfg : String) (c : XnConfig)
    (entries : List (Option DirEntry)) (readFile : String → Option String)
    (content : String → String) (output : String) (prevOut : Option String)
    (childExit : Nat)
    (hc : parseConfig cfg = some c)
    (hne : gather_xn_files entries ≠ [])
    (hread : ∀ f ∈ gather_xn_files entries, readFile f = some (content f)) :
    handle_build none output (some cfg) entries readFile prevOut true childExit =
      .ok (some (mergedText content (gather_xn_files entries)), c.compiler_path,
        ["out/output.xn", "-o", output]) := by
  have hl : load_config (some cfg) = .ok c := load_config_some _ _ hc
  have hcat := concatenate_ok entries readFile content hne hread
  rw [handle_build.eq_def, hl]
  simp [hcat]

/-- Claim C10 witness: building with `--output out/prog.wasm` over two
sources still writes the merge to `out/output.xn` (replacing its old
content) and passes `out/output.xn` to the compiler. -/
theorem c10_build_fixed_merge_path_witness :
    handle_build none "out/prog.wasm" (some sampleToml) mergeEntries mergeRead
        (some "old content") true 7 =
      .ok (some (mergedText mergeContent (gather_xn_files mergeEntries)),
        "xcc", ["out/output.xn", "-o", "out/prog.wasm"]) :=
  c10_build_fixed_merge_path sampleToml sampleConfig mergeEntries mergeRead
    mergeContent "out/prog.wasm" (some "old content") 7
    (by decide) (by decide) (by decide)

end Carrier
